import Mathlib

/-!
Verification development for the n8n-openapi-node schema compiler.

The embedding follows `src/openapi/OpenAPIWalker.ts` (document walker) and
the primary variant of `src/n8n/SchemaToINodeProperties.ts` (schema /
parameter / request-body compiler).  The reference resolver
(`RefResolver.resolve`), the example extractor (`SchemaExample.extractExample`)
and the lodash helpers are external collaborators of the core; they are
modelled as abstract function parameters (bundled in `Ctx`) or, for the pure
lodash string helpers, as executable functions matching their documented
behaviour on the ASCII inputs the compiler feeds them.
-/

namespace NOpenApi

/-- JSON-like values: the dynamic values flowing through the compiler
(schema examples, field defaults). -/
inductive JsonValue where
  | null
  | bool (b : Bool)
  | num (n : Int)
  | str (s : String)
  | arr (items : List JsonValue)
  | obj (fields : List (String × JsonValue))
deriving Repr

/-- Escape a string for inclusion in a JSON string literal
(model of the escaping JSON.stringify performs). -/
def jsonEscape (s : String) : String :=
  s.data.foldl (fun acc c =>
    acc ++ (if c = Char.ofNat 34 then "\\\""
            else if c = Char.ofNat 92 then "\\\\"
            else if c = Char.ofNat 10 then "\\n"
            else if c = Char.ofNat 9 then "\\t"
            else if c = Char.ofNat 13 then "\\r"
            else String.singleton c)) ""

/-- Two-space indentation padding used by JSON.stringify(value, null, 2). -/
def jsonPad (indent : Nat) : String :=
  String.mk (List.replicate (indent * 2) ' ')

mutual

/-- Model of JSON.stringify(value, null, 2) at a given indentation level. -/
def jsonStringify (indent : Nat) : JsonValue → String
  | .null => "null"
  | .bool true => "true"
  | .bool false => "false"
  | .num n => toString n
  | .str s => "\"" ++ jsonEscape s ++ "\""
  | .arr [] => "[]"
  | .arr (x :: xs) =>
    "[\n" ++ jsonItems (indent + 1) x xs ++ "\n" ++ jsonPad indent ++ "]"
  | .obj [] => "\x7b\x7d"
  | .obj ((k, v) :: fs) =>
    "\x7b\n" ++ jsonFields (indent + 1) k v fs ++ "\n" ++ jsonPad indent ++ "\x7d"
termination_by v => sizeOf v

/-- Comma-separated, indented array elements for `jsonStringify`. -/
def jsonItems (indent : Nat) (x : JsonValue) : List JsonValue → String
  | [] => jsonPad indent ++ jsonStringify indent x
  | y :: ys =>
    jsonPad indent ++ jsonStringify indent x ++ ",\n" ++ jsonItems indent y ys
termination_by xs => 1 + sizeOf x + sizeOf xs

/-- Comma-separated, indented object entries for `jsonStringify`. -/
def jsonFields (indent : Nat) (k : String) (v : JsonValue) :
    List (String × JsonValue) → String
  | [] => jsonPad indent ++ "\"" ++ jsonEscape k ++ "\": " ++ jsonStringify indent v
  | (k2, v2) :: gs =>
    jsonPad indent ++ "\"" ++ jsonEscape k ++ "\": " ++ jsonStringify indent v
      ++ ",\n" ++ jsonFields indent k2 v2 gs
termination_by gs => 1 + sizeOf v + sizeOf gs

end

/-- JSON.stringify(value, null, 2) as called by the compiler. -/
def jsonStringifyTop (v : JsonValue) : String := jsonStringify 0 v

/-- Split a character list into maximal runs of alphanumeric characters,
dropping the separators (first phase of the lodash word splitter). -/
def splitRuns : List Char → List (List Char)
  | [] => []
  | c :: cs =>
    let rest := splitRuns cs
    if c.isAlphanum then
      match cs with
      | c2 :: _ =>
        if c2.isAlphanum then
          match rest with
          | r :: rs => (c :: r) :: rs
          | [] => [[c]]
        else [c] :: rest
      | [] => [[c]]
    else rest

/-- A camel-case / letter-digit boundary inside a word
(second phase of the lodash word splitter). -/
def camelBoundary (c1 c2 : Char) : Bool :=
  (c1.isLower && c2.isUpper) || (c1.isAlpha && c2.isDigit) || (c1.isDigit && c2.isAlpha)

/-- Split one alphanumeric run at camel-case and letter-digit boundaries. -/
def splitCamel : List Char → List (List Char)
  | [] => []
  | c :: cs =>
    let rest := splitCamel cs
    match cs with
    | c2 :: _ =>
      if camelBoundary c c2 then [c] :: rest
      else
        match rest with
        | r :: rs => (c :: r) :: rs
        | [] => [[c]]
    | [] => [[c]]

/-- Capitalize the first character of a word, leaving the rest unchanged. -/
def capitalizeWord (w : List Char) : String :=
  match w with
  | [] => ""
  | c :: cs => String.mk (c.toUpper :: cs)

/-- Model of `lodash.startCase` on ASCII input: split into words on
non-alphanumeric separators and camel-case / letter-digit boundaries,
capitalize each word, join with spaces. -/
def startCase (s : String) : String :=
  String.intercalate " " ((List.flatten ((splitRuns s.data).map splitCamel)).map capitalizeWord)

/-- One hexadecimal digit (uppercase, as produced by encodeURIComponent). -/
def hexDigit (n : Nat) : Char :=
  if n < 10 then Char.ofNat (48 + n) else Char.ofNat (55 + n)

/-- UTF-8 bytes of a code point. -/
def utf8Bytes (n : Nat) : List Nat :=
  if n < 0x80 then [n]
  else if n < 0x800 then
    [0xC0 ||| (n >>> 6), 0x80 ||| (n &&& 0x3F)]
  else if n < 0x10000 then
    [0xE0 ||| (n >>> 12), 0x80 ||| ((n >>> 6) &&& 0x3F), 0x80 ||| (n &&& 0x3F)]
  else
    [0xF0 ||| (n >>> 18), 0x80 ||| ((n >>> 12) &&& 0x3F),
     0x80 ||| ((n >>> 6) &&& 0x3F), 0x80 ||| (n &&& 0x3F)]

/-- Characters left unescaped by JavaScript encodeURIComponent. -/
def uriUnreserved (c : Char) : Bool :=
  c.isAlphanum || c = '-' || c = '_' || c = '.' || c = '!' || c = '~' ||
    c = '*' || c = Char.ofNat 39 || c = '(' || c = ')'

/-- Model of JavaScript encodeURIComponent. -/
def encodeURIComponent (s : String) : String :=
  s.data.foldl (fun acc c =>
    acc ++ (if uriUnreserved c then String.singleton c
            else String.join ((utf8Bytes c.toNat).map fun b =>
              String.mk ['%', hexDigit (b / 16), hexDigit (b % 16)]))) ""

/-- Model of `name.replace(/\./g, "-")`: every dot becomes a hyphen. -/
def replaceDots (s : String) : String :=
  String.mk (s.data.map fun c => if c = '.' then '-' else c)

/-- JavaScript truthiness filter for an optional string: `undefined` and the
empty string are falsy. -/
def truthyStr : Option String → Option String
  | none => none
  | some s => if s = "" then none else some s

/-- The pattern occurs at the start of the character list. -/
def charsStartWith : List Char → List Char → Bool
  | [], _ => true
  | _ :: _, [] => false
  | p :: ps, c :: cs => p == c && charsStartWith ps cs

/-- The pattern occurs somewhere in the character list. -/
def charsContain (pat : List Char) : List Char → Bool
  | [] => charsStartWith pat []
  | c :: cs => charsStartWith pat (c :: cs) || charsContain pat cs

/-- Substring containment, modelling an unanchored regular-expression test
whose pattern is a literal string followed by `.*`. -/
def containsSubstr (s pat : String) : Bool :=
  charsContain pat.data s.data

/-- The media-type test `/application\/json.*/.test(key)`: the key contains
"application/json" as a substring. -/
def isJsonMedia (k : String) : Bool :=
  containsSubstr k "application/json"

/-- OpenAPI schema node: either a named reference (a `$ref` object, whose
other fields read as undefined) or a concrete schema object with the fields
the compiler inspects. -/
inductive Schema where
  | ref (name : String)
  | obj (schemaType : Option String) (enumValues : List String)
        (schemaProps : Option (List (String × Schema)))
        (schemaRequired : Option (List String))
        (schemaItems : Option Schema)
        (schemaDescr : Option String)
deriving Repr

/-- Accessor for `schema.type` (undefined on a reference object). -/
def Schema.typeOf : Schema → Option String
  | .ref _ => none
  | .obj t _ _ _ _ _ => t

/-- Accessor for `schema.enum`, with undefined and an empty list both modelled as `[]`
(both are rejected by the `schema.enum && schema.enum.length > 0` guard). -/
def Schema.enumVals : Schema → List String
  | .ref _ => []
  | .obj _ e _ _ _ _ => e

/-- Accessor for `schema.properties` (undefined on a reference object). -/
def Schema.props : Schema → Option (List (String × Schema))
  | .ref _ => none
  | .obj _ _ p _ _ _ => p

/-- Accessor for `schema.required` of object schemas: the required-property name list. -/
def Schema.requiredProps : Schema → Option (List String)
  | .ref _ => none
  | .obj _ _ _ r _ _ => r

/-- Accessor for `schema.items` (undefined on a reference object). -/
def Schema.itemsOf : Schema → Option Schema
  | .ref _ => none
  | .obj _ _ _ _ i _ => i

/-- Accessor for `schema.description` (undefined on a reference object). -/
def Schema.descr : Schema → Option String
  | .ref _ => none
  | .obj _ _ _ _ _ d => d

/-- One media-type entry of a `content` map. -/
structure MediaType where
  schema : Option Schema
deriving Repr

/-- OpenAPI parameter object (already shaped: name, location, optional
schema or media-type-keyed content map, serialization style). -/
structure Parameter where
  name : String
  paramIn : String
  required : Option Bool := none
  schema : Option Schema := none
  content : Option (List (String × MediaType)) := none
  style : Option String := none
  explode : Option Bool := none
  description : Option String := none
  exampleVal : Option JsonValue := none
deriving Repr

/-- A parameter list entry: a `$ref` indirection or a concrete parameter. -/
inductive ParamOrRef where
  | ref (name : String)
  | param (p : Parameter)
deriving Repr

/-- OpenAPI request body: media-type-keyed content map plus required flag. -/
structure RequestBody where
  content : List (String × MediaType)
  required : Option Bool := none
deriving Repr

/-- A request body or a `$ref` indirection to one. -/
inductive BodyOrRef where
  | ref (name : String)
  | body (b : RequestBody)
deriving Repr

/-- A sub-field inside a fixed-collection option group. -/
structure SubField where
  displayName : String
  name : String
  type : String
  default : Option JsonValue
  description : String
deriving Repr

/-- An option entry of a compiled field: either a labelled enum choice
(name and value) or a fixed-collection group carrying sub-fields. -/
inductive FieldOptionEntry where
  | choice (name : String) (value : String)
  | collection (name : String) (displayName : String) (values : List SubField)
deriving Repr

/-- The `typeOptions` of a compiled field. -/
structure TypeOptions where
  multipleValues : Bool
deriving Repr, DecidableEq

/-- The `send` part of a routing rule. -/
structure SendRule where
  type : Option String := none
  property : Option String := none
  value : Option String := none
  propertyInDotNotation : Option Bool := none
deriving Repr, DecidableEq

/-- The `request` part of a routing rule. -/
structure RequestRule where
  headers : List (String × String) := []
  body : Option String := none
deriving Repr, DecidableEq

/-- A routing rule embedded in a field descriptor. -/
structure Routing where
  send : Option SendRule := none
  request : Option RequestRule := none
deriving Repr, DecidableEq

/-- A compiled field descriptor (INodeProperties). A key that is absent from
the JavaScript object is modelled as `none`. -/
structure Field where
  displayName : Option String := none
  name : Option String := none
  type : Option String := none
  required : Option Bool := none
  description : Option String := none
  default : Option JsonValue := none
  options : Option (List FieldOptionEntry) := none
  typeOptions : Option TypeOptions := none
  routing : Option Routing := none
deriving Repr

/-- The projection of a field computed by `fromSchema`
(`Pick<INodeProperties, 'type' | 'description' | 'options' | 'default'>`). -/
structure SchemaField where
  type : Option String := none
  description : Option String := none
  default : Option JsonValue := none
  options : Option (List FieldOptionEntry) := none
deriving Repr

/-- View a `fromSchema` result as a (partial) field descriptor. -/
def schemaFieldToField (sk : SchemaField) : Field :=
  { type := sk.type, description := sk.description,
    default := sk.default, options := sk.options }

/-- Errors raised by the compiler: `explicitError` models a deliberate
`throw new Error(...)`; `typeError` models an implicit JavaScript TypeError
(dereferencing undefined). -/
inductive CompileError where
  | explicitError (msg : String)
  | typeError (msg : String)
deriving DecidableEq, Repr

/-- The collaborator services the core receives: transitive reference
resolution (`RefResolver.resolve`) and example extraction
(`SchemaExample.extractExample`). -/
structure Ctx where
  resolveSchema : Schema → Schema
  resolveParam : ParamOrRef → Parameter
  resolveBody : BodyOrRef → RequestBody
  extractExample : Schema → Option JsonValue

/-- Model of `combine(...sources)` from SchemaToINodeProperties.ts: lodash.defaults
(earlier sources win per key; an undefined key falls through), then the
required flag is deleted unless it is true, and undefined-valued keys are
removed (absence and undefined coincide in the `Option` model). -/
def combine (a b : Field) : Field :=
  let merged : Field :=
    { displayName := a.displayName <|> b.displayName,
      name := a.name <|> b.name,
      type := a.type <|> b.type,
      required := a.required <|> b.required,
      description := a.description <|> b.description,
      default := a.default <|> b.default,
      options := a.options <|> b.options,
      typeOptions := a.typeOptions <|> b.typeOptions,
      routing := a.routing <|> b.routing }
  { merged with required := if merged.required = some true then some true else none }

/-- Model of `findKey(obj, regexp)`: first key of the map matching the predicate,
returning its value; a falsy (empty-string) key yields undefined. -/
def findKey (entries : List (String × MediaType)) (p : String → Bool) :
    Option MediaType :=
  match entries.find? fun kv => p kv.1 with
  | some (k, v) => if k = "" then none else some v
  | none => none

/-- The type-inference switch of `fromSchema` (lines 48-87 of the primary
variant): resolve the schema, extract an example, and map the schema type to
a presentation type and default.  A boolean without example defaults to
`false`; string/number defaults stay unset without an example; object/array
examples are pretty-printed as JSON text; an unrecognized type leaves the
presentation type unset. -/
def fromSchemaBase (ctx : Ctx) (s : Schema) : SchemaField :=
  let schema := ctx.resolveSchema s
  let ex := ctx.extractExample schema
  match schema.typeOf with
  | some "boolean" =>
    { type := some "boolean", description := schema.descr,
      default := some (ex.getD (JsonValue.bool false)) }
  | some "string" =>
    { type := some "string", description := schema.descr, default := ex }
  | none =>
    { type := some "string", description := schema.descr, default := ex }
  | some "object" =>
    { type := some "json", description := schema.descr,
      default := ex.map fun v => JsonValue.str (jsonStringifyTop v) }
  | some "array" =>
    { type := some "json", description := schema.descr,
      default := ex.map fun v => JsonValue.str (jsonStringifyTop v) }
  | some "number" =>
    { type := some "number", description := schema.descr, default := ex }
  | some "integer" =>
    { type := some "number", description := schema.descr, default := ex }
  | some _ =>
    { type := none, description := schema.descr, default := ex }

/-- Model of `fromSchema` (lines 47-101): the type-inference switch, then the enum
override (a non-empty enum forces the choice type, each literal becomes a
start-cased labelled option, and the default falls back to the first
literal when no default was computed). -/
def fromSchema (ctx : Ctx) (s : Schema) : SchemaField :=
  let field := fromSchemaBase ctx s
  match (ctx.resolveSchema s).enumVals with
  | [] => field
  | v0 :: vs =>
    { field with
      type := some "options",
      options := some ((v0 :: vs).map fun v => FieldOptionEntry.choice (startCase v) v),
      default := some (field.default.getD (JsonValue.str v0)) }

/-- Model of `fromSchemaProperty(name, property)` (lines 298-306): compile the
property schema and overlay the start-cased display name and the
dot-sanitized machine name. -/
def fromSchemaProperty (ctx : Ctx) (name : String) (property : Schema) : Field :=
  let fieldSchemaKeys := fromSchema ctx property
  let fieldParameterKeys : Field :=
    { displayName := some (startCase name), name := some (replaceDots name) }
  combine fieldParameterKeys (schemaFieldToField fieldSchemaKeys)

/-- Model of `getArrayItemType` (lines 215-226). -/
def getArrayItemType (itemsSchema : Schema) : String :=
  match itemsSchema.typeOf with
  | some "boolean" => "boolean"
  | some "number" => "number"
  | some "integer" => "number"
  | _ => "string"

/-- Model of `getArrayItemDefault` (lines 228-245): an explicit example wins; a
boolean item gets `false`; other item types remain without a default. -/
def getArrayItemDefault (ctx : Ctx) (itemsSchema : Schema) : Option JsonValue :=
  match ctx.extractExample itemsSchema with
  | some v => some v
  | none =>
    match itemsSchema.typeOf with
    | some "boolean" => some (JsonValue.bool false)
    | _ => none

/-- Model of `fromArrayQueryParameter` (lines 172-213): a grouped repeatable-items
field with one "value" sub-field typed from the item schema; the default
comes from an explicit non-empty array example, otherwise it is the empty
collection. -/
def fromArrayQueryParameter (ctx : Ctx) (schema : Schema) (p : Parameter) :
    Except CompileError Field :=
  if schema.typeOf ≠ some "array" then
    .error (.explicitError "fromArrayQueryParameter called with non-array schema")
  else match schema.itemsOf with
  | none =>
    .error (.explicitError "fromArrayQueryParameter called with non-array schema")
  | some items =>
    let itemsSchema := ctx.resolveSchema items
    let defaultValue := ctx.extractExample schema
    let baseField : Field :=
      { type := some "fixedCollection",
        default := some (JsonValue.obj []),
        description := (truthyStr schema.descr) <|> p.description,
        typeOptions := some { multipleValues := true },
        options := some
          [FieldOptionEntry.collection "items" "Items"
            [{ displayName := "Value", name := "value",
               type := getArrayItemType itemsSchema,
               default := getArrayItemDefault ctx itemsSchema,
               description := (truthyStr itemsSchema.descr).getD
                 ("Item value (" ++ ((truthyStr itemsSchema.typeOf).getD "any") ++ ")") }]] }
    match defaultValue with
    | some (JsonValue.arr (v :: vs)) =>
      .ok { baseField with
              default := some (JsonValue.obj
                [("items", JsonValue.arr ((v :: vs).map fun x =>
                    JsonValue.obj [("value", x)]))]) }
    | _ => .ok baseField

/-- Model of `getArrayQueryRouting` (lines 247-284): a falsy style reads as "form",
explode defaults to true; form+explode and the unrecognized-style fallback
send the item list as a repeated query entry, form+no-explode joins the
items with commas into a single query entry. -/
def getArrayQueryRouting (p : Parameter) (schema : Schema) : Routing :=
  let style := match p.style with
    | none => "form"
    | some s => if s = "" then "form" else s
  let explode := p.explode ≠ some false
  if style = "form" ∧ explode then
    { send := some
        { type := some "query", property := some p.name,
          value := some "=\x7b\x7b $value.items ? $value.items.map(item => item.value) : [] \x7d\x7d",
          propertyInDotNotation := some false } }
  else if style = "form" ∧ ¬explode then
    { send := some
        { type := some "query", property := some p.name,
          value := some "=\x7b\x7b $value.items ? $value.items.map(item => item.value).join(\",\") : \"\" \x7d\x7d",
          propertyInDotNotation := some false } }
  else
    { send := some
        { type := some "query", property := some p.name,
          value := some "=\x7b\x7b $value.items ? $value.items.map(item => item.value) : [] \x7d\x7d",
          propertyInDotNotation := some false } }

/-- The first block of `fromParameter` (lines 105-116): take the directly
attached schema, otherwise scan the content map for a JSON-compatible media
type.  A missing content map makes `Object.keys(undefined)` throw a
TypeError, and a content map without JSON match makes `content.schema`
throw a TypeError, so the explicit "schema nor content" throw on line 115
is unreachable (`fromSchema` always returns an object). -/
def paramFieldSchemaKeys (ctx : Ctx) (p : Parameter) :
    Except CompileError SchemaField :=
  match p.schema with
  | some s => .ok (fromSchema ctx s)
  | none =>
    match p.content with
    | none => .error (.typeError "Cannot convert undefined or null to object")
    | some content =>
      match findKey content isJsonMedia with
      | none => .error (.typeError "Cannot read properties of undefined")
      | some mt =>
        match mt.schema with
        | some s => .ok (fromSchema ctx s)
        | none => .error (.typeError "Cannot read properties of undefined")

/-- The schema the array-query special case inspects (line 119):
`parameter.schema || (parameter.content && findKey(...)?.schema)`, resolved.
When `paramFieldSchemaKeys` succeeded this argument is always defined; the
fallback arm models the unreachable resolve-of-undefined. -/
def paramResolvedSchema (ctx : Ctx) (p : Parameter) : Schema :=
  let input : Option Schema :=
    match p.schema with
    | some s => some s
    | none =>
      match p.content with
      | none => none
      | some content => (findKey content isJsonMedia).bind fun mt => mt.schema
  match input with
  | some s => ctx.resolveSchema s
  | none => Schema.obj none [] none none none none

/-- The final required-flag cleanup of `fromParameter` (lines 166-168):
delete the flag unless it is true. -/
def cleanRequired (f : Field) : Field :=
  { f with required := if f.required = some true then some true else none }

/-- Model of `fromParameter` (lines 103-170): resolve the parameter, compile its
schema (array query parameters through the grouped-items path), overlay
parameter-level facts, then apply location-specific routing: scalar query
routing, path forcing required, header routing, and an explicit error for
any other location. -/
def fromParameter (ctx : Ctx) (p0 : ParamOrRef) : Except CompileError Field :=
  let p := ctx.resolveParam p0
  match paramFieldSchemaKeys ctx p with
  | .error e => .error e
  | .ok fieldSchemaKeys =>
    let schema := paramResolvedSchema ctx p
    let isArrayQueryParam := p.paramIn = "query" ∧ schema.typeOf = some "array"
    let fsk : Except CompileError Field :=
      if isArrayQueryParam then fromArrayQueryParameter ctx schema p
      else .ok (schemaFieldToField fieldSchemaKeys)
    match fsk with
    | .error e => .error e
    | .ok fieldSchemaKeys2 =>
      let fieldParameterKeys : Field :=
        { displayName := some (startCase p.name),
          name := some (encodeURIComponent (replaceDots p.name)),
          required := p.required,
          description := truthyStr p.description,
          default := p.exampleVal }
      let field := combine fieldParameterKeys fieldSchemaKeys2
      if p.paramIn = "query" then
        let routed :=
          if isArrayQueryParam then
            { field with routing := some (getArrayQueryRouting p schema) }
          else
            { field with routing := some {
                send := some {
                  type := some "query", property := some p.name,
                  value := some "=\x7b\x7b $value \x7d\x7d",
                  propertyInDotNotation := some false } } }
        .ok (cleanRequired routed)
      else if p.paramIn = "path" then
        .ok (cleanRequired { field with required := some true })
      else if p.paramIn = "header" then
        .ok (cleanRequired
          { field with routing := some {
              request := some {
                headers := [(p.name, "=\x7b\x7b $value \x7d\x7d")] } } })
      else .error (.explicitError ("Unknown parameter location " ++ p.paramIn))

/-- Model of `fromParameters` (lines 286-296): an absent list compiles to the empty
list; otherwise each parameter is compiled in order. -/
def fromParameters (ctx : Ctx) :
    Option (List ParamOrRef) → Except CompileError (List Field)
  | none => .ok []
  | some ps => ps.mapM (fromParameter ctx)

/-- Content-type selection of `fromRequestBody` (lines 314-333): first a
JSON-compatible media type, then the wildcard media type, then the first
media type in document order; an empty map selects nothing.  The returned
content-type label is the literal "application/json" for the JSON case, as
in the source. -/
def selectContent (content : List (String × MediaType)) :
    Option (String × MediaType) :=
  match findKey content isJsonMedia with
  | some mt => some ("application/json", mt)
  | none =>
    match content.lookup "*/*" with
    | some mt => some ("*/*", mt)
    | none =>
      match content with
      | [] => none
      | kv :: _ => some kv

/-- The object part of `fromRequestBody` (lines 397-431): reject a schema
with neither properties nor object type, otherwise emit one descriptor per
declared property, required from the schema's required set, routed as a
body sub-field keyed by the property name, JSON-typed fields through
JSON.parse and all others as the raw value. -/
def objectBodyFields (ctx : Ctx) (schema : Schema) :
    Except CompileError (List Field) :=
  if schema.props.isNone ∧ schema.typeOf ≠ some "object" then
    .error (.explicitError
      ("Request body schema type " ++ (schema.typeOf.getD "undefined") ++ " not supported"))
  else
    .ok ((schema.props.getD []).map fun kp =>
      let fieldPropertyKeys := fromSchemaProperty ctx kp.1 kp.2
      let fieldDefaults : Field :=
        { required := schema.requiredProps.map fun l => l.contains kp.1 }
      let field := combine fieldDefaults fieldPropertyKeys
      { field with routing := some {
          send := some {
            property := some kp.1, propertyInDotNotation := some false,
            type := some "body",
            value := some (if field.type = some "json"
              then "=\x7b\x7b JSON.parse($value) \x7d\x7d"
              else "=\x7b\x7b $value \x7d\x7d") } } })

/-- Model of `fromRequestBody` (lines 308-432): an absent body yields no fields;
otherwise resolve the body, select a content entry (JSON, wildcard, first;
explicit error when the map is empty), resolve its schema then branch:
scalar bodies become a single "body" field (a wildcard string body becomes
the binary-upload field), array bodies a single JSON-text "body" field
parsed before sending, and the rest goes through `objectBodyFields`. -/
def fromRequestBody (ctx : Ctx) :
    Option BodyOrRef → Except CompileError (List Field)
  | none => .ok []
  | some b0 =>
    let body := ctx.resolveBody b0
    match selectContent body.content with
    | none => .error (.explicitError "No content found in request body")
    | some (contentType, mt) =>
      match mt.schema with
      | none => .error (.typeError "Cannot read properties of undefined")
      | some requestBodySchema =>
        let schema := ctx.resolveSchema requestBodySchema
        if schema.props.isNone ∧ (schema.typeOf = some "string" ∨
            schema.typeOf = some "number" ∨ schema.typeOf = some "integer" ∨
            schema.typeOf = some "boolean") then
          let fieldPropertyKeys := fromSchema ctx schema
          let fieldDefaults : Field :=
            { displayName := some "Body", name := some "body",
              required := body.required,
              description := some ((truthyStr schema.descr).getD "Request body content") }
          let field := combine fieldDefaults (schemaFieldToField fieldPropertyKeys)
          if contentType = "*/*" ∧ schema.typeOf = some "string" then
            .ok [({ field with
                    type := some "string",
                    displayName := some "Binary Property",
                    default := some (JsonValue.str "data"),
                    routing := some {
                      send := some { type := some "body", property := some "$value" },
                      request := some {
                        headers := [("Content-Type",
                          "=\x7b\x7b $binary[$parameter[\"body\"]].mimeType \x7d\x7d")] } },
                    description := some
                      "Name of the binary property containing the file to upload" })]
          else
            .ok [({ field with routing := some {
                    request := some { body := some "=\x7b\x7b $value \x7d\x7d" } } })]
        else if schema.typeOf = some "array" then
          match schema.itemsOf with
          | some items =>
            let innerSchema := ctx.resolveSchema items
            let fieldPropertyKeys := fromSchemaProperty ctx "body" innerSchema
            let fieldDefaults : Field := { required := body.required }
            let field := combine fieldDefaults fieldPropertyKeys
            .ok [({ field with routing := some {
                    request := some { body := some "=\x7b\x7b JSON.parse($value) \x7d\x7d" } } })]
          | none => objectBodyFields ctx schema
        else objectBodyFields ctx schema

/-- The recognized HTTP method keys (`Object.values(OpenAPIV3.HttpMethods)`);
any other key of a path item is skipped by the walker. -/
def httpMethods : List String :=
  ["get", "put", "post", "delete", "options", "head", "patch", "trace"]

/-- An operation as the walker sees it: its tag list and parameter list,
each possibly absent. -/
structure Operation where
  tags : Option (List String) := none
  parameters : Option (List ParamOrRef) := none
deriving Repr

/-- JavaScript truthiness of a nullable string (`.filter(Boolean)`):
null and the empty string are falsy. -/
def jsTruthyStr : Option String → Bool
  | none => false
  | some s => s != ""

/-- The override name set built by `walkPaths` (lines 60-68): map each
operation-scoped entry to its name (null for a `$ref` entry, to be resolved
later), then `.filter(Boolean)` drops the nulls — and, incidentally, any
empty-string name. -/
def operationParamNames (opPs : List ParamOrRef) : List String :=
  ((opPs.map fun r =>
    match r with
    | ParamOrRef.ref _ => none
    | ParamOrRef.param q => some q.name).filter jsTruthyStr).filterMap id

/-- The parameter merge of `walkPaths` (lines 70-79): path-scoped entries
survive when they are references or their name is not in the override set,
followed by all operation-scoped entries. -/
def mergeParameters (pathPs opPs : List ParamOrRef) : List ParamOrRef :=
  let names := operationParamNames opPs
  (pathPs.filter fun p =>
    match p with
    | ParamOrRef.ref _ => true
    | ParamOrRef.param q => !(names.contains q.name)) ++ opPs

/-- Tag defaulting of `walkPaths` (lines 50-52): an absent or empty tag
list becomes `["default"]`, anything else is untouched. -/
def normalizeTags : Option (List String) → List String
  | none => ["default"]
  | some [] => ["default"]
  | some ts => ts

/-- The per-operation normalization `walkPaths` performs before invoking the
visitor's operation callback (lines 50-82): default the tags, and when the
path item carries path-scoped parameters, merge them into the operation's
list. -/
def walkOperation (pathLevelParameters : List ParamOrRef) (op : Operation) :
    Operation :=
  { tags := some (normalizeTags op.tags),
    parameters :=
      if pathLevelParameters.length > 0 then
        some (mergeParameters pathLevelParameters (op.parameters.getD []))
      else op.parameters }

/-- A path item: its path-scoped parameters and its keyed entries (method
keys map to operations; the walker filters on `httpMethods`). -/
structure PathItem where
  parameters : Option (List ParamOrRef) := none
  entries : List (String × Operation) := []

/-- The walk of one path item (lines 39-87): recognized method entries, in
insertion order, each operation normalized by `walkOperation`. -/
def walkPathItem (pi : PathItem) : List (String × Operation) :=
  (pi.entries.filter fun kv => httpMethods.contains kv.1).map fun kv =>
    (kv.1, walkOperation ((pi.parameters).getD []) kv.2)

/-- Count of concrete parameters with a given name in a merged list. -/
def countNamed (ps : List ParamOrRef) (x : String) : Nat :=
  (ps.filter fun r =>
    match r with
    | ParamOrRef.ref _ => false
    | ParamOrRef.param q => q.name == x).length

/-- A concrete collaborator context for evaluation: the identity resolver
(idempotent on concrete nodes, as the collaborator contract requires) and an
example extractor returning no value. -/
def exampleCtx : Ctx :=
  { resolveSchema := fun s => s,
    resolveParam := fun r =>
      match r with
      | ParamOrRef.param p => p
      | ParamOrRef.ref _ => { name := "", paramIn := "" },
    resolveBody := fun b =>
      match b with
      | BodyOrRef.body x => x
      | BodyOrRef.ref _ => { content := [] },
    extractExample := fun _ => none }

/-- The required flag of a cleaned field is never an explicit false. -/
lemma cleanRequired_req (g : Field) :
    (cleanRequired g).required = none ∨ (cleanRequired g).required = some true := by
  unfold cleanRequired
  by_cases h : g.required = some true <;> simp [h]

/-- Cleaning preserves a true required flag. -/
lemma cleanRequired_req_true (g : Field) (h : g.required = some true) :
    (cleanRequired g).required = some true := by
  unfold cleanRequired
  simp [h]

/-- C10: fromRequestBody applied to an absent request body returns the empty
descriptor list without error, and fromParameters applied to an absent
parameter list likewise returns the empty list. -/
theorem C10_absent_inputs (ctx : Ctx) :
    fromRequestBody ctx none = Except.ok [] ∧
    fromParameters ctx none = Except.ok [] :=
  ⟨rfl, rfl⟩

/-- C7: an operation visited by the walker whose tag list was absent or
empty ends up with the tag list `["default"]`; an operation that already
had tags keeps them unchanged. -/
theorem C7_tag_defaulting (pathPs : List ParamOrRef) (op : Operation) :
    ((op.tags = none ∨ op.tags = some []) →
      (walkOperation pathPs op).tags = some ["default"]) ∧
    (∀ ts, op.tags = some ts → ts ≠ [] →
      (walkOperation pathPs op).tags = some ts) := by
  constructor
  · rintro (h | h) <;> simp [walkOperation, normalizeTags, h]
  · intro ts hts hne
    cases ts with
    | nil => exact absurd rfl hne
    | cons a as => simp [walkOperation, normalizeTags, hts]

/-- Witness: evaluating C7 on a tagless operation and on a tagged one. -/
theorem C7_tag_defaulting_witness :
    (walkOperation [] ({ tags := none } : Operation)).tags = some ["default"] ∧
    (walkOperation [] ({ tags := some ["pets"] } : Operation)).tags = some ["pets"] :=
  ⟨(C7_tag_defaulting [] { tags := none }).1 (Or.inl rfl),
   (C7_tag_defaulting [] { tags := some ["pets"] }).2 ["pets"] rfl (by simp)⟩

/-- C9 (divergence witness): a parameter with neither a schema nor any
JSON-compatible content entry makes fromParameter fail with an implicit
TypeError — `Object.keys(undefined)` when the content map is absent,
`content.schema` on undefined when no media type matches — so the explicit
"Parameter schema nor content not found" error on line 115 never fires. -/
theorem C9_missing_schema_typeerror :
    fromParameter exampleCtx (ParamOrRef.param { name := "p", paramIn := "query" }) =
      Except.error (CompileError.typeError "Cannot convert undefined or null to object") ∧
    fromParameter exampleCtx (ParamOrRef.param
      { name := "p", paramIn := "query",
        content := some [("text/plain",
          { schema := some (Schema.obj (some "string") [] none none none none) })] }) =
      Except.error (CompileError.typeError "Cannot read properties of undefined") :=
  ⟨rfl, rfl⟩

/-- C3: a schema of primitive boolean kind (no enumeration) for which the
example extractor returns no value compiles to a boolean-typed field with
default false. -/
theorem C3_boolean_default (ctx : Ctx) (s : Schema)
    (ht : (ctx.resolveSchema s).typeOf = some "boolean")
    (he : (ctx.resolveSchema s).enumVals = [])
    (hx : ctx.extractExample (ctx.resolveSchema s) = none) :
    (fromSchema ctx s).type = some "boolean" ∧
    (fromSchema ctx s).default = some (JsonValue.bool false) := by
  simp [fromSchema, fromSchemaBase, he, ht, hx]

/-- Witness: C3 evaluated on a concrete boolean schema with the identity
resolver and an example extractor returning nothing. -/
theorem C3_boolean_default_witness :
    (fromSchema exampleCtx (Schema.obj (some "boolean") [] none none none none)).type
        = some "boolean" ∧
    (fromSchema exampleCtx (Schema.obj (some "boolean") [] none none none none)).default
        = some (JsonValue.bool false) :=
  C3_boolean_default exampleCtx (Schema.obj (some "boolean") [] none none none none)
    rfl rfl rfl

/-- C5: for an array-typed query parameter, the synthesized routing joins
the selected items with commas into a single query entry exactly when the
style is form (or falsy, which reads as form) and explode is explicitly
false; every other style/explode combination — including any unrecognized
style — produces the repeated-entry routing of the explode behaviour, and
no combination produces an error. -/
theorem C5_array_query_routing (p : Parameter) (schema : Schema) :
    getArrayQueryRouting p schema =
      (if (p.style = none ∨ p.style = some "" ∨ p.style = some "form") ∧
          p.explode = some false then
        { send := some {
            type := some "query", property := some p.name,
            value := some "=\x7b\x7b $value.items ? $value.items.map(item => item.value).join(\",\") : \"\" \x7d\x7d",
            propertyInDotNotation := some false } }
      else
        { send := some {
            type := some "query", property := some p.name,
            value := some "=\x7b\x7b $value.items ? $value.items.map(item => item.value) : [] \x7d\x7d",
            propertyInDotNotation := some false } }) := by
  unfold getArrayQueryRouting
  rcases hs : p.style with _ | s
  · rcases hx : p.explode with _ | b
    · simp
    · cases b <;> simp
  · rcases hx : p.explode with _ | b
    · by_cases h1 : s = "" <;> by_cases h2 : s = "form" <;> simp [h1, h2]
    · cases b <;> by_cases h1 : s = "" <;> by_cases h2 : s = "form" <;>
        simp [h1, h2]

/-- C4: a schema declaring a non-empty enumeration compiles, regardless of
its primitive kind, to an options-typed field whose options are the
literals in order, labelled with their start-cased form, and whose default
is the pre-override default when one was computed, else the first literal;
in particular the string schema with enum ["a_b", "c"] and no example
yields options labelled "A B" and "C" with default "a_b". -/
theorem C4_enum_override (ctx : Ctx) (s : Schema) (v0 : String) (vs : List String)
    (h : (ctx.resolveSchema s).enumVals = v0 :: vs) :
    (fromSchema ctx s).type = some "options" ∧
    (fromSchema ctx s).options =
      some ((v0 :: vs).map fun v => FieldOptionEntry.choice (startCase v) v) ∧
    (fromSchema ctx s).default =
      some ((fromSchemaBase ctx s).default.getD (JsonValue.str v0)) ∧
    fromSchema exampleCtx (Schema.obj (some "string") ["a_b", "c"] none none none none) =
      { type := some "options", description := none,
        default := some (JsonValue.str "a_b"),
        options := some [FieldOptionEntry.choice "A B" "a_b",
                         FieldOptionEntry.choice "C" "c"] } := by
  refine ⟨?_, ?_, ?_, rfl⟩ <;> simp [fromSchema, h]

/-- Witness: C4 applied to the concrete enum schema of the claim. -/
theorem C4_enum_override_witness :
    (fromSchema exampleCtx
      (Schema.obj (some "string") ["a_b", "c"] none none none none)).type =
      some "options" :=
  (C4_enum_override exampleCtx
    (Schema.obj (some "string") ["a_b", "c"] none none none none)
    "a_b" ["c"] rfl).1

/-- C2: the content entry used by fromRequestBody is the first
JSON-compatible media type when one exists, else the wildcard media type,
else the first media type in document order; a request body whose content
map has no entries raises the explicit "No content found" error. -/
theorem C2_content_resolution (content : List (String × MediaType))
    (k : String) (mt : MediaType) :
    ((content.find? fun kv => isJsonMedia kv.1) = some (k, mt) →
      selectContent content = some ("application/json", mt)) ∧
    ((∀ kv ∈ content, isJsonMedia kv.1 = false) →
      content.lookup "*/*" = some mt →
      selectContent content = some ("*/*", mt)) ∧
    (∀ k0 mt0 rest, content = (k0, mt0) :: rest →
      (∀ kv ∈ content, isJsonMedia kv.1 = false) →
      content.lookup "*/*" = none →
      selectContent content = some (k0, mt0)) ∧
    fromRequestBody exampleCtx (some (BodyOrRef.body { content := [] })) =
      Except.error (CompileError.explicitError "No content found in request body") := by
  refine ⟨?_, ?_, ?_, rfl⟩
  · intro hf
    have hj : isJsonMedia k = true := by
      have := List.find?_some hf
      simpa using this
    have hk : ¬ (k = "") := by
      intro hk0
      rw [hk0] at hj
      simp [isJsonMedia, containsSubstr, charsContain, charsStartWith] at hj
    simp [selectContent, findKey, hf, hk]
  · intro hnone hlook
    have hf : (content.find? fun kv => isJsonMedia kv.1) = none := by
      apply List.find?_eq_none.mpr
      intro kv hkv
      simp [hnone kv hkv]
    simp [selectContent, findKey, hf, hlook]
  · intro k0 mt0 rest hc hnone hlook
    have hf : (content.find? fun kv => isJsonMedia kv.1) = none := by
      apply List.find?_eq_none.mpr
      intro kv hkv
      simp [hnone kv hkv]
    subst hc
    unfold selectContent findKey
    rw [hf, hlook]

/-- Witness: C2 applied to a content map whose JSON-compatible entry is
found ahead of a preceding non-JSON entry. -/
theorem C2_content_resolution_witness :
    selectContent
      [("text/plain", ({ schema := none } : MediaType)),
       ("application/json; charset=utf-8", ({ schema := none } : MediaType))] =
      some ("application/json", ({ schema := none } : MediaType)) :=
  (C2_content_resolution _ "application/json; charset=utf-8" { schema := none }).1 rfl

/-- C8: a field descriptor returned by fromParameter never carries an
explicit false required flag (false is deleted), and a parameter located in
the path always yields a required flag that is present and true. -/
theorem C8_required_flag (ctx : Ctx) (p0 : ParamOrRef) (f : Field)
    (h : fromParameter ctx p0 = Except.ok f) :
    (f.required = none ∨ f.required = some true) ∧
    ((ctx.resolveParam p0).paramIn = "path" → f.required = some true) := by
  unfold fromParameter at h
  simp only [] at h
  split at h
  · exact absurd h (by simp)
  · split at h
    · exact absurd h (by simp)
    · split at h
      · rw [Except.ok.injEq] at h
        subst h
        refine ⟨cleanRequired_req _, fun hp => ?_⟩
        rename_i hq
        rw [hp] at hq
        exact absurd hq (by decide)
      · split at h
        · rw [Except.ok.injEq] at h
          subst h
          exact ⟨Or.inr (cleanRequired_req_true _ rfl),
                 fun _ => cleanRequired_req_true _ rfl⟩
        · split at h
          · rw [Except.ok.injEq] at h
            subst h
            refine ⟨cleanRequired_req _, fun hp => ?_⟩
            rename_i hh
            rw [hp] at hh
            exact absurd hh (by decide)
          · exact absurd h (by simp)

/-- Witness: C8 applied to a concrete path parameter whose declared
required flag is absent, observing the forced true flag. -/
theorem C8_required_flag_witness :
    ({ displayName := some "Id", name := some "id", type := some "string",
       required := some true } : Field).required = some true :=
  (C8_required_flag exampleCtx
    (ParamOrRef.param
      { name := "id", paramIn := "path",
        schema := some (Schema.obj (some "string") [] none none none none) })
    { displayName := some "Id", name := some "id", type := some "string",
      required := some true }
    rfl).2 rfl

/-- Membership in the walker's override name set: exactly the non-empty
names of concrete operation-scoped parameters. -/
lemma mem_operationParamNames (opPs : List ParamOrRef) (x : String) :
    x ∈ operationParamNames opPs ↔
      x ≠ "" ∧ ∃ q : Parameter, ParamOrRef.param q ∈ opPs ∧ q.name = x := by
  constructor
  · intro hx
    simp only [operationParamNames, List.mem_filterMap, List.mem_filter,
      List.mem_map, id_eq] at hx
    obtain ⟨o, ⟨⟨r, hr, hro⟩, hto⟩, ho⟩ := hx
    subst ho
    cases r with
    | ref n => simp at hro
    | param q =>
      simp only at hro
      rw [Option.some.injEq] at hro
      subst hro
      refine ⟨by simpa [jsTruthyStr] using hto, q, hr, rfl⟩
  · rintro ⟨hx, q, hq, rfl⟩
    simp only [operationParamNames, List.mem_filterMap, List.mem_filter,
      List.mem_map, id_eq]
    exact ⟨some q.name, ⟨⟨ParamOrRef.param q, hq, rfl⟩,
      by simp [jsTruthyStr, hx]⟩, rfl⟩

/-- C1 counterexample: with a path-scoped and an operation-scoped parameter
both named the empty string, the override set built with `.filter(Boolean)`
drops the empty-string name, so the merged list retains both parameters —
the claim would leave exactly the one operation-scoped parameter. -/
theorem C1_counterexample :
    countNamed [ParamOrRef.param { name := "", paramIn := "header" }] "" = 1 ∧
    countNamed (mergeParameters
      [ParamOrRef.param { name := "", paramIn := "query" }]
      [ParamOrRef.param { name := "", paramIn := "header" }]) "" = 2 :=
  ⟨rfl, rfl⟩

/-- C1 (amended): the merged list is the path-scoped parameters whose name
is not the non-empty name of any concrete operation-scoped parameter
(references always retained), followed by all operation-scoped parameters;
when a path-scoped and an operation-scoped parameter share a non-empty
name x, the parameters named x in the merged list are exactly those of the
operation scope. -/
theorem C1_merge_amended (pathPs opPs : List ParamOrRef) :
    (mergeParameters pathPs opPs =
      (pathPs.filter fun p =>
        match p with
        | ParamOrRef.ref _ => true
        | ParamOrRef.param q =>
          !(opPs.any fun r =>
            match r with
            | ParamOrRef.ref _ => false
            | ParamOrRef.param r2 => r2.name != "" && r2.name == q.name)) ++ opPs) ∧
    (∀ x, x ≠ "" →
      (opPs.any fun r =>
        match r with
        | ParamOrRef.ref _ => false
        | ParamOrRef.param r2 => r2.name == x) = true →
      countNamed (mergeParameters pathPs opPs) x = countNamed opPs x) := by
  have hcontains : ∀ y : String,
      ((operationParamNames opPs).contains y = true) ↔
        (y ≠ "" ∧ ∃ q : Parameter, ParamOrRef.param q ∈ opPs ∧ q.name = y) := by
    intro y
    rw [List.elem_iff]
    exact mem_operationParamNames opPs y
  constructor
  · unfold mergeParameters
    simp only []
    congr 1
    apply List.filter_congr
    intro p hp
    cases p with
    | ref n => rfl
    | param q =>
      simp only []
      congr 1
      rcases h1 : (operationParamNames opPs).contains q.name with _ | _
      · rcases h2 : (opPs.any fun r =>
          match r with
          | ParamOrRef.ref _ => false
          | ParamOrRef.param r2 => r2.name != "" && r2.name == q.name) with _ | _
        · rfl
        · exfalso
          rw [List.any_eq_true] at h2
          obtain ⟨r, hr, hpr⟩ := h2
          cases r with
          | ref n => simp at hpr
          | param r2 =>
            simp only [Bool.and_eq_true, bne_iff_ne, beq_iff_eq] at hpr
            have : (operationParamNames opPs).contains q.name = true := by
              rw [hcontains q.name]
              exact ⟨hpr.2 ▸ hpr.1, r2, hr, hpr.2⟩
            rw [h1] at this
            exact Bool.false_ne_true this
      · rw [hcontains q.name] at h1
        obtain ⟨hy, q2, hq2, hn2⟩ := h1
        have h2 : (opPs.any fun r =>
            match r with
            | ParamOrRef.ref _ => false
            | ParamOrRef.param r2 => r2.name != "" && r2.name == q.name) = true := by
          rw [List.any_eq_true]
          exact ⟨ParamOrRef.param q2, hq2, by simp [hn2, hy]⟩
        rw [h2]
  · intro x hx hany
    have hmem : x ∈ operationParamNames opPs := by
      rw [List.any_eq_true] at hany
      obtain ⟨r, hr, hpr⟩ := hany
      cases r with
      | ref n => simp at hpr
      | param r2 =>
        simp only [beq_iff_eq] at hpr
        exact (mem_operationParamNames opPs x).mpr ⟨hx, r2, hr, hpr⟩
    unfold mergeParameters countNamed
    rw [List.filter_append, List.length_append]
    have hzero : ((pathPs.filter fun p =>
        match p with
        | ParamOrRef.ref _ => true
        | ParamOrRef.param q => !((operationParamNames opPs).contains q.name)).filter
          fun r =>
            match r with
            | ParamOrRef.ref _ => false
            | ParamOrRef.param q => q.name == x) = [] := by
      rw [List.filter_eq_nil_iff]
      intro r hr
      rw [List.mem_filter] at hr
      cases r with
      | ref n => simp
      | param q =>
        simp only [beq_iff_eq]
        intro hqx
        have hkeep := hr.2
        simp only [Bool.not_eq_true'] at hkeep
        have : (operationParamNames opPs).contains q.name = true := by
          rw [List.elem_iff]
          exact hqx ▸ hmem
        rw [this] at hkeep
        simp at hkeep
    rw [hzero]
    simp

/-- Witness: the amended C1 merge evaluated on a shared non-empty name. -/
theorem C1_merge_amended_witness :
    countNamed (mergeParameters
      [ParamOrRef.param { name := "x", paramIn := "query" }]
      [ParamOrRef.param { name := "x", paramIn := "header" }]) "x" =
      countNamed [ParamOrRef.param { name := "x", paramIn := "header" }] "x" :=
  (C1_merge_amended
    [ParamOrRef.param { name := "x", paramIn := "query" }]
    [ParamOrRef.param { name := "x", paramIn := "header" }]).2 "x" (by decide) rfl

/-- A field produced by fromSchemaProperty never carries a required flag. -/
lemma fromSchemaProperty_req (ctx : Ctx) (n : String) (p : Schema) :
    (fromSchemaProperty ctx n p).required = none := rfl

/-- The required flag a combine produces from its two sources. -/
lemma combine_req (a b : Field) :
    (combine a b).required =
      if (a.required <|> b.required) = some true then some true else none := rfl

/-- The request-body schema of the object-body example: two properties, "a"
a required string and "b" an optional object. -/
def abBodySchema : Schema :=
  Schema.obj (some "object") []
    (some [("a", Schema.obj (some "string") [] none none none none),
           ("b", Schema.obj (some "object") [] none none none none)])
    (some ["a"]) none none

/-- The request body carrying `abBodySchema` under application/json. -/
def abBody : RequestBody :=
  { content := [("application/json", { schema := some abBodySchema })] }

/-- C6: a request body whose resolved schema is an object with declared
properties compiles to exactly one descriptor per property in order, the
required flag present exactly when the key is in the schema's required set,
each routed as a body sub-field addressed by the property key, JSON-typed
fields with a parse-before-send value and all others with the raw value;
the concrete a/b example yields the two expected descriptors. -/
theorem C6_object_body (ctx : Ctx) (b0 : BodyOrRef) (body : RequestBody)
    (ct : String) (mt : MediaType) (s0 : Schema)
    (en : List String) (props : List (String × Schema))
    (reqd : Option (List String)) (it : Option Schema) (dsc : Option String)
    (hb : ctx.resolveBody b0 = body)
    (hsel : selectContent body.content = some (ct, mt))
    (hmt : mt.schema = some s0)
    (hres : ctx.resolveSchema s0 =
      Schema.obj (some "object") en (some props) reqd it dsc) :
    ∃ fields, fromRequestBody ctx (some b0) = Except.ok fields ∧
      fields.length = props.length ∧
      (∀ i (hf : i < fields.length) (hp : i < props.length),
        (fields.get ⟨i, hf⟩).required =
          (if (reqd.getD []).contains (props.get ⟨i, hp⟩).1 then some true
           else none) ∧
        (fields.get ⟨i, hf⟩).routing = some {
          send := some {
            type := some "body",
            property := some (props.get ⟨i, hp⟩).1,
            value := some (if (fields.get ⟨i, hf⟩).type = some "json"
              then "=\x7b\x7b JSON.parse($value) \x7d\x7d"
              else "=\x7b\x7b $value \x7d\x7d"),
            propertyInDotNotation := some false } }) ∧
      fromRequestBody exampleCtx (some (BodyOrRef.body abBody)) =
        Except.ok
          [{ displayName := some "A", name := some "a", type := some "string",
             required := some true,
             routing := some { send := some {
               type := some "body", property := some "a",
               value := some "=\x7b\x7b $value \x7d\x7d",
               propertyInDotNotation := some false } } },
           { displayName := some "B", name := some "b", type := some "json",
             routing := some { send := some {
               type := some "body", property := some "b",
               value := some "=\x7b\x7b JSON.parse($value) \x7d\x7d",
               propertyInDotNotation := some false } } }] := by
  have hmain : fromRequestBody ctx (some b0) =
      Except.ok (props.map fun kp =>
        let fieldPropertyKeys := fromSchemaProperty ctx kp.1 kp.2
        let fieldDefaults : Field :=
          { required := reqd.map fun l => l.contains kp.1 }
        let field := combine fieldDefaults fieldPropertyKeys
        { field with routing := some {
            send := some {
              property := some kp.1, propertyInDotNotation := some false,
              type := some "body",
              value := some (if field.type = some "json"
                then "=\x7b\x7b JSON.parse($value) \x7d\x7d"
                else "=\x7b\x7b $value \x7d\x7d") } } }) := by
    simp only [fromRequestBody, hb, hsel, hmt, hres]
    rfl
  refine ⟨_, hmain, by simp, ?_, rfl⟩
  intro i hf hp
  constructor
  · simp only [List.get_map]
    rcases reqd with _ | l
    · simp [combine, fromSchemaProperty, schemaFieldToField]
    · by_cases h : l.contains (props.get ⟨i, hp⟩).1 <;>
        simp [combine, fromSchemaProperty, schemaFieldToField, h]
  · simp only [List.get_map]

/-- Witness: C6 applied to the concrete a/b request body. -/
theorem C6_object_body_witness :
    ∃ fields,
      fromRequestBody exampleCtx (some (BodyOrRef.body abBody)) =
        Except.ok fields ∧ fields.length = 2 := by
  obtain ⟨fields, h1, h2, h3, h4⟩ :=
    C6_object_body exampleCtx (BodyOrRef.body abBody) abBody
      "application/json" { schema := some abBodySchema } abBodySchema
      [] [("a", Schema.obj (some "string") [] none none none none),
          ("b", Schema.obj (some "object") [] none none none none)]
      (some ["a"]) none none rfl rfl rfl rfl
  exact ⟨fields, h1, by simpa using h2⟩

end NOpenApi
